import Mathlib

/-!
Verification of the phenology pipeline of `src/Phenology_Tab1_Fig9.py`
(shallow-water-chla repository).

The script builds, for every (decade, station) group of chlorophyll-a
observations, a gap-filled smoothed daily seasonal curve, extracts phenology
metrics (peak day, start of season, amplitude, area under curve), estimates
uncertainty by bootstrap, applies a single documented outlier correction, and
runs three trend-analysis methods.

The embedding below translates the relevant pipeline steps into executable
Lean definitions over `ℕ`-valued days of year and `ℚ`-valued concentrations
(the float arithmetic of the source is modelled by exact rational arithmetic;
NaN-producing aggregations over empty data are modelled with `Option`,
`none` playing the role of NaN/absent, and IEEE division by zero producing
infinity is modelled with `WithTop ℚ`).
-/

set_option maxRecDepth 10000

/-! ## Generic list helpers mirroring numpy / pandas primitives -/

/-- Minimum of a list of rationals; `none` on the empty list
(pandas `Series.min()` yields NaN there). -/
def listMinQ : List ℚ → Option ℚ
  | [] => none
  | x :: xs => some (xs.foldl min x)

/-- Maximum of a list of rationals; `none` on the empty list. -/
def listMaxQ : List ℚ → Option ℚ
  | [] => none
  | x :: xs => some (xs.foldl max x)

/-- Insert into a list sorted by `le` (helper for `sortBy`). -/
def insertBy {α : Type} (le : α → α → Bool) (x : α) : List α → List α
  | [] => [x]
  | y :: ys => if le x y then x :: y :: ys else y :: insertBy le x ys

/-- Insertion sort by a boolean comparison, modelling `sort_values` /
`np.sort` (ties keep a deterministic order; all uses below are tie-free
or tie-insensitive). -/
def sortBy {α : Type} (le : α → α → Bool) (l : List α) : List α :=
  l.foldr (insertBy le) []

/-- First index attaining the maximum of a list, as `np.argmax`
(ties broken by first occurrence). Returns 0 on the empty list. -/
def argmaxIdx (l : List ℚ) : ℕ :=
  (List.range l.length).foldl
    (fun b i => if l.getD b 0 < l.getD i 0 then i else b) 0

/-! ## Rolling mean

`rolling(window=30, center=True, min_periods=1).mean()` (line 69 and line 89
of the source). For output position `i`, pandas aggregates positions
`[i - 15, i + 14]` clipped to the series bounds (centered window of nominal
size 30, offset `(30-1)/2 = 14`), and `min_periods=1` makes every clipped
window non-empty. -/

/-- Value of the pandas centered 30-rolling mean at position `i`. -/
def rollingMeanAt (vals : List ℚ) (i : ℕ) : ℚ :=
  let lo := i - 15
  let hi := min vals.length (i + 15)
  let w := (vals.drop lo).take (hi - lo)
  w.sum / (w.length : ℚ)

/-- The pandas centered 30-rolling mean of a whole series. -/
def rollingMean (vals : List ℚ) : List ℚ :=
  (List.range vals.length).map (rollingMeanAt vals)

/-! ## Seasonal curve builder (source lines 58–69)

An observation is a pair (day of year, chla value); a group is the list of
observations of one station in one decade. The builder
1. averages observations sharing a day of year (`groupby('doy').mean()`),
2. reindexes to days 1..364 (`reindex(list(range(1,365)))`),
3. linearly interpolates over the defined days with boundary clamping
   (`interp1d` on the non-NaN rows, argument clipped by `np.clip`),
4. slices rows 150:290 of the daily frame (a positional slice), and
5. applies the centered 30-rolling mean.
`interp1d` raises a ValueError unless it gets at least 2 points, which the
builder models with `Except`. -/

/-- One observation: (day of year, chla concentration). -/
abbrev Obs := ℕ × ℚ

/-- Mean chla of the observations of one day of year, `none` if the day has
no observation (`groupby('doy')['chla'].mean()` restricted to day `d`). -/
def doyMean (obs : List Obs) (d : ℕ) : Option ℚ :=
  let vals := (obs.filter (fun o => decide (o.1 = d))).map Prod.snd
  if vals.isEmpty then none else some (vals.sum / (vals.length : ℚ))

/-- The defined (non-NaN) rows of the frame reindexed to days 1..364, in
increasing day order: the `temp_data_daily` of line 64. -/
def definedPts (obs : List Obs) : List (ℕ × ℚ) :=
  (List.range' 1 364).filterMap (fun d => (doyMean obs d).map (fun v => (d, v)))

/-- Piecewise-linear interpolation through a strictly increasing point list
(scipy `interp1d(kind='linear')`); the query is assumed clamped into the
point span, as the source does with `np.clip`. -/
def interpLinear : List (ℕ × ℚ) → ℚ → ℚ
  | [], _ => 0
  | [(_, y)], _ => y
  | (x1, y1) :: (x2, y2) :: rest, x =>
    if x ≤ (x2 : ℚ) then y1 + (y2 - y1) * (x - (x1 : ℚ)) / ((x2 : ℚ) - (x1 : ℚ))
    else interpLinear ((x2, y2) :: rest) x

/-- The gap-filled daily frame over days 1..364: `basin_data_daily` after
line 67, each day carrying the interpolation of the defined points at the
day clipped into their span. -/
def dailyFrame (obs : List Obs) : List (ℕ × ℚ) :=
  let pts := definedPts obs
  let lo : ℚ := ((pts.headD (0, 0)).1 : ℕ)
  let hi : ℚ := ((pts.getLastD (0, 0)).1 : ℕ)
  (List.range' 1 364).map (fun d => (d, interpLinear pts (max lo (min (d : ℚ) hi))))

/-- The slice `basin_data_daily[150:290]` of line 68: a positional row slice
of the daily frame (rows 150 to 289, i.e. days 151 to 290). -/
def restrictedFrame (obs : List Obs) : List (ℕ × ℚ) :=
  ((dailyFrame obs).drop 150).take 140

/-- Days of the restricted frame paired with the rolling-mean smoothed
values (`chla_avg`, line 69). -/
def smoothedCurve (obs : List Obs) : List (ℕ × ℚ) :=
  ((restrictedFrame obs).map Prod.fst).zip
    (rollingMean ((restrictedFrame obs).map Prod.snd))

/-- The seasonal curve of one group: list of (day, smoothed value) pairs
(source lines 61–69). Fails like `interp1d` when fewer than two days of
year carry data. -/
def buildCurve (obs : List Obs) : Except String (List (ℕ × ℚ)) :=
  if (definedPts obs).length < 2 then
    .error "interp1d: x and y arrays must have at least 2 entries"
  else
    .ok (smoothedCurve obs)

/-! ## C1 example input -/

/-- Example group for C1: observations on two days of year, constant value. -/
def exObsC1 : List Obs := [(200, 7), (210, 7)]

/-- The curve the builder produces for `exObsC1`: constant 7 on days 151–290. -/
def exCurveC1 : List (ℕ × ℚ) := (List.range' 151 140).map (fun d => (d, 7))

/-! ## Phenology extraction (source lines 71–110)

The extractor restricts the curve to the sub-window of days 120..304
(`may_oct_mask`), computes min/max/amplitude/threshold of the smoothed
values there, takes as SOS the first row whose smoothed value strictly
exceeds the threshold, integrates the curve from SOS to day 304 by the
trapezoidal rule, and takes the peak at the argmax of the smoothed values.
Empty-window aggregations produce NaN in pandas; here they produce `none`,
and comparisons against a `none` threshold are false exactly as comparisons
against NaN are. -/

/-- `data_may_oct`: rows of the curve with day in [120, 304] (line 72–73). -/
def sosWindow (c : List (ℕ × ℚ)) : List (ℕ × ℚ) :=
  c.filter (fun p => decide (120 ≤ p.1) && decide (p.1 ≤ 304))

/-- `min_chla` of line 74 (`none` models the NaN of an empty window). -/
def minChla (c : List (ℕ × ℚ)) : Option ℚ := listMinQ ((sosWindow c).map Prod.snd)

/-- `max_chla` of line 75. -/
def maxChla (c : List (ℕ × ℚ)) : Option ℚ := listMaxQ ((sosWindow c).map Prod.snd)

/-- `amplitude = max_chla - min_chla` (line 76). -/
def amplitudeOf (c : List (ℕ × ℚ)) : Option ℚ :=
  match minChla c, maxChla c with
  | some mn, some mx => some (mx - mn)
  | _, _ => none

/-- `threshold = min_chla + 0.2 * amplitude` (line 77). -/
def thresholdOf (c : List (ℕ × ℚ)) : Option ℚ :=
  match minChla c, maxChla c with
  | some mn, some mx => some (mn + (1 / 5) * (mx - mn))
  | _, _ => none

/-- Start of season: day of the first window row whose smoothed value
strictly exceeds the threshold; `none` when no row does or when the
threshold itself is NaN (lines 78–82). -/
def sosOfCurve (c : List (ℕ × ℚ)) : Option ℕ :=
  match thresholdOf c with
  | none => none
  | some t => (((sosWindow c).filter (fun p => decide (t < p.2))).map Prod.fst).head?

/-- Trapezoidal integral of a (day, value) list, as `np.trapezoid(y, x)`. -/
def trapezoid : List (ℕ × ℚ) → ℚ
  | (d1, v1) :: (d2, v2) :: rest =>
    (v1 + v2) * ((d2 : ℚ) - (d1 : ℚ)) / 2 + trapezoid ((d2, v2) :: rest)
  | _ => 0

/-- AUC from the SOS to day 304, absent when the SOS is (lines 100–105). -/
def aucOf (c : List (ℕ × ℚ)) : Option ℚ :=
  match sosOfCurve c with
  | none => none
  | some s =>
    some (trapezoid ((sosWindow c).filter
      (fun p => decide (s ≤ p.1) && decide (p.1 ≤ 304))))

/-- The deterministic per-group metrics of the result record (lines 107–136;
the bootstrap uncertainties are modelled separately). -/
structure GroupMetrics where
  peak_doy : ℕ
  peak_value : ℚ
  sos : Option ℕ
  amplitude : Option ℚ
  auc : Option ℚ
deriving DecidableEq

/-- Extract the deterministic metrics from a curve: peak at `np.argmax` of
the smoothed values (first index of the maximum), SOS/amplitude/AUC as
above. -/
def extractMetrics (c : List (ℕ × ℚ)) : GroupMetrics :=
  let i := argmaxIdx (c.map Prod.snd)
  { peak_doy := (c.getD i (0, 0)).1
    peak_value := (c.getD i (0, 0)).2
    sos := sosOfCurve c
    amplitude := amplitudeOf c
    auc := aucOf c }

/-! ## Per-group processing and the whole run (source lines 54–136)

The loop body skips a group whose observation set is empty (lines 59–60)
and otherwise builds the curve and extracts the metrics; an exception in
any group propagates out of the loop and kills the entire script, which
`runAll` models by short-circuiting `Except`. -/

/-- Process one group: `none` when skipped, metrics otherwise; an
`interp1d` failure escapes as `.error`. -/
def processGroup (obs : List Obs) : Except String (Option GroupMetrics) :=
  if obs.isEmpty then .ok none
  else (buildCurve obs).map (fun c => some (extractMetrics c))

/-- Process every group in order; the first exception aborts the whole
run, discarding all results. -/
def runAll : List (List Obs) → Except String (List (Option GroupMetrics))
  | [] => .ok []
  | g :: gs =>
    match processGroup g with
    | .error e => .error e
    | .ok r =>
      match runAll gs with
      | .error e => .error e
      | .ok rs => .ok (r :: rs)

/-- C2 example: a healthy two-day group followed by a group whose
observations all fall on one single day of year. -/
def exGroupsC2 : List (List Obs) := [exObsC1, [(200, 5), (200, 9)]]

/-- C2 amended witness example: groups that are empty or have two distinct
sampled days. -/
def exGroupsC2ok : List (List Obs) := [[(10, 1), (20, 2)], []]

/-! ## SOS bootstrap (source lines 84–98)

Each of the 1000 iterations draws `sample = data_may_oct.sample(frac=1,
replace=True)`, sorts it by day, recomputes the rolling smoothing
(`chla_smooth`) on the resampled series and the threshold from the min/max
of that re-smoothed series, and then selects candidates by
`sample['chla_avg'] > threshold_b` — the resampled rows' ORIGINAL smoothed
values, not the recomputed `chla_smooth`. Iterations with no candidate
append nothing; `np.std` runs only on the collected values, and the
uncertainty is `None` when the collection is empty. Randomness is
externalized: an iteration is a function of its drawn resample. -/

/-- `sample.sort_values('doy')` of line 88 (duplicate days carry identical
rows, so tie order is irrelevant). -/
def sortByDoy (l : List (ℕ × ℚ)) : List (ℕ × ℚ) :=
  sortBy (fun a b => decide (a.1 ≤ b.1)) l

/-- `threshold_b` of line 93: recomputed from the re-smoothed resample. -/
def bootThreshold (sample : List (ℕ × ℚ)) : Option ℚ :=
  let sm := rollingMean ((sortByDoy sample).map Prod.snd)
  match listMinQ sm, listMaxQ sm with
  | some mn, some mx => some (mn + (1 / 5) * (mx - mn))
  | _, _ => none

/-- One bootstrap iteration's SOS (lines 87–97): first row of the sorted
resample whose `chla_avg` value (line 94 — not the recomputed
`chla_smooth`) strictly exceeds the recomputed threshold. -/
def bootIterSOS (sample : List (ℕ × ℚ)) : Option ℕ :=
  match bootThreshold sample with
  | none => none
  | some t =>
    (((sortByDoy sample).filter (fun p => decide (t < p.2))).map Prod.fst).head?

/-- Modelled from the spec: the claimed iteration SOS, which selects the
first day whose value in the re-smoothed (recomputed) series strictly
exceeds the recomputed threshold. Kept for comparison with `bootIterSOS`. -/
def bootIterSOSSpec (sample : List (ℕ × ℚ)) : Option ℕ :=
  let s := sortByDoy sample
  let sm := rollingMean (s.map Prod.snd)
  match listMinQ sm, listMaxQ sm with
  | some mn, some mx =>
    let t := mn + (1 / 5) * (mx - mn)
    ((((s.map Prod.fst).zip sm).filter (fun p => decide (t < p.2))).map Prod.fst).head?
  | _, _ => none

/-- The collected per-iteration SOS values (`bootstrap_sos`, lines 85–97):
failed iterations contribute nothing rather than zero. -/
def bootstrapSOSList (samples : List (List (ℕ × ℚ))) : List ℕ :=
  samples.filterMap bootIterSOS

/-- Population variance of a list (mean squared deviation from the mean).
`np.std` of line 98 is the square root of this quantity; only presence and
which values enter matter below, and the square root preserves both. -/
def listVariance (l : List ℚ) : ℚ :=
  let m := l.sum / (l.length : ℚ)
  (l.map (fun x => (x - m) ^ 2)).sum / (l.length : ℚ)

/-- `sos_std` of line 98: absent when no iteration produced an SOS,
otherwise the spread of the collected values only. -/
def sosUncertainty (samples : List (List (ℕ × ℚ))) : Option ℚ :=
  let bs := bootstrapSOSList samples
  if bs.isEmpty then none else some (listVariance (bs.map (fun n => (n : ℚ))))

/-- C4 counterexample resample: one spike among flat values. -/
def exBootC4 : List (ℕ × ℚ) := [(1, 0), (2, 0), (3, 100), (4, 0), (5, 0)]

/-- C4 witness resample. -/
def exBootC4w : List (ℕ × ℚ) := [(10, 1), (20, 9)]

/-! ## Result rows, outlier correction and trend-method guards
(source lines 126–136, 156–166, 183, 202–217, 246, 293)

A row of `results_df`: `peak_doy` and `std2` are `Option ℚ` because the
Method-2 filter tests them with `pd.notna` (`none` models NaN). In the
actual pipeline every produced row carries numeric values and `decade`
ranges over 1..4. -/

structure Row where
  decade : ℕ
  basin : String
  peak_doy : Option ℚ
  peak_value : ℚ
  std2 : Option ℚ
  sos : Option ℕ
  sos_std : Option ℚ
  amplitude : Option ℚ
  auc : Option ℚ
deriving DecidableEq

/-- `outlier_mask` of line 158: basin Zanka, decade 4, peak day 279. -/
def outlierMask (r : Row) : Bool :=
  decide (r.basin = "Zanka") && decide (r.decade = 4) && decide (r.peak_doy = some 279)

/-- The replacement row of lines 159–160: peak day 246, uncertainty 3.2. -/
def correctedRowOf (r : Row) : Row :=
  { r with peak_doy := some 246, std2 := some (16 / 5) }

/-- Apply the outlier correction to one row. -/
def correctRow (r : Row) : Row :=
  if outlierMask r then correctedRowOf r else r

/-- `results_df_filtered` (lines 157–160): the corrected table. The code
operates on a `.copy()` of `results_df`, so the original uncorrected table
survives the correction, as it trivially does here. -/
def applyOutlierCorrection (t : List Row) : List Row :=
  t.map correctRow

/-- The Method-2 usability filter of line 211: `pd.notna(doy) and
pd.notna(std2)` — definedness only, no positivity test. -/
def usableRow (r : Row) : Bool :=
  r.peak_doy.isSome && r.std2.isSome

/-- Rows entering `all_years`/`all_doys`/`all_weights` (lines 206–217). -/
def usableRows (t : List Row) : List Row :=
  t.filter usableRow

/-- IEEE-style reciprocal: numpy float division `1.0 / x` yields infinity
(modelled by `⊤`) at `x = 0` instead of raising. -/
def npReciprocal (x : ℚ) : WithTop ℚ :=
  if x = 0 then ⊤ else ((1 / x : ℚ) : WithTop ℚ)

/-- The weight `1.0 / std2**2` of line 217 (0 when std2 is NaN never
happens: weights are computed only for usable rows). -/
def weightOf (r : Row) : WithTop ℚ :=
  npReciprocal ((r.std2.getD 0) ^ 2)

/-- The Method-2 guard of line 246: `len(all_years) >= 4`. -/
def method2Runs (t : List Row) : Bool :=
  decide (4 ≤ (usableRows t).length)

/-- Peak-day values of one decade, NaN dropped (`dropna`, line 177). -/
def decadePeaks (t : List Row) (d : ℕ) : List ℚ :=
  (t.filter (fun r => decide (r.decade = d))).filterMap (fun r => r.peak_doy)

/-- `mean_doy_values` (lines 173–180): one mean per decade present in the
table with at least one defined peak day, in decade order (decades run
over 1..4 by construction of the pipeline). -/
def meanDoyValues (t : List Row) : List ℚ :=
  (([1, 2, 3, 4] : List ℕ).filter
      (fun d => (t.map (fun r => r.decade)).contains d)).filterMap
    (fun d =>
      let l := decadePeaks t d
      if l.isEmpty then none else some (l.sum / (l.length : ℚ)))

/-- Tags for the three trend methods. -/
inductive MethodTag where
  | method1
  | method2
  | method3
deriving DecidableEq

/-- Which methods produce any output: Method 1 (line 183) and Method 3
(line 293) run only under `len(mean_doy_values) == len(years)` (= 4);
Method 2 (line 246) only under `len(all_years) >= 4`. A method whose guard
fails prints nothing at all. -/
def trendMethodsRun (t : List Row) : List MethodTag :=
  (if (meanDoyValues t).length = 4 then [MethodTag.method1] else []) ++
    (if 4 ≤ (usableRows t).length then [MethodTag.method2] else []) ++
      (if (meanDoyValues t).length = 4 then [MethodTag.method3] else [])

/-- C3 counterexample table: three decades only, three usable rows. -/
def exTableC3 : List Row :=
  [{ decade := 1, basin := "Tihany", peak_doy := some 240, peak_value := 30,
     std2 := some 2, sos := some 180, sos_std := some 1, amplitude := some 10,
     auc := some 900 },
   { decade := 2, basin := "Tihany", peak_doy := some 235, peak_value := 31,
     std2 := some 2, sos := some 181, sos_std := some 1, amplitude := some 11,
     auc := some 900 },
   { decade := 3, basin := "Tihany", peak_doy := some 230, peak_value := 32,
     std2 := some 2, sos := some 182, sos_std := some 1, amplitude := some 12,
     auc := some 900 }]

/-- C8 example: an untouched row. -/
def rowOtherC8 : Row :=
  { decade := 4, basin := "Keszthely", peak_doy := some 250, peak_value := 40,
    std2 := some 5, sos := some 175, sos_std := some 2, amplitude := some 20,
    auc := some 1200 }

/-- C8 example: the Zanka decade-4 row with automatically computed peak 279. -/
def rowZankaC8 : Row :=
  { decade := 4, basin := "Zanka", peak_doy := some 279, peak_value := 35,
    std2 := some 12, sos := some 185, sos_std := some 3, amplitude := some 15,
    auc := some 1000 }

/-- C8 example table. -/
def exTableC8 : List Row := [rowOtherC8, rowZankaC8]

/-- C10 example: a row with zero peak-day uncertainty. -/
def exRowC10 : Row :=
  { decade := 1, basin := "Bfuzfo", peak_doy := some 240, peak_value := 30,
    std2 := some 0, sos := some 180, sos_std := some 1, amplitude := some 10,
    auc := some 900 }

/-- C10 example table: four usable rows, one with zero uncertainty. -/
def exTableC10 : List Row :=
  [exRowC10,
   { decade := 2, basin := "Bfuzfo", peak_doy := some 238, peak_value := 30,
     std2 := some 2, sos := some 180, sos_std := some 1, amplitude := some 10,
     auc := some 900 },
   { decade := 3, basin := "Bfuzfo", peak_doy := some 236, peak_value := 30,
     std2 := some 2, sos := some 180, sos_std := some 1, amplitude := some 10,
     auc := some 900 },
   { decade := 4, basin := "Bfuzfo", peak_doy := some 234, peak_value := 30,
     std2 := some 2, sos := some 180, sos_std := some 1, amplitude := some 10,
     auc := some 900 }]

/-! ## Sen's slope (source lines 299–313) -/

/-- Ascending sort of rationals (`np.median` sorts before indexing). -/
def sortLe (l : List ℚ) : List ℚ :=
  sortBy (fun a b => decide (a ≤ b)) l

/-- `np.median`: middle element of the sorted list for odd length, average
of the two middle elements for even length. -/
def npMedian (l : List ℚ) : ℚ :=
  let s := sortLe l
  if l.length % 2 = 1 then s.getD (l.length / 2) 0
  else (s.getD (l.length / 2 - 1) 0 + s.getD (l.length / 2) 0) / 2

/-- All pairwise slopes `(y_j - y_i) / (x_j - x_i)` over `i < j` with
`x_j ≠ x_i`, in the loop order of lines 306–310. -/
def pairSlopes (x y : List ℚ) : List ℚ :=
  (List.range x.length).flatMap (fun i =>
    ((List.range x.length).filter (fun j => decide (i < j))).filterMap (fun j =>
      if x.getD j 0 = x.getD i 0 then none
      else some ((y.getD j 0 - y.getD i 0) / (x.getD j 0 - x.getD i 0))))

/-- Sen's slope (lines 299–311): the median of all pairwise slopes. -/
def sens_slope (x y : List ℚ) : ℚ :=
  npMedian (pairSlopes x y)

/-! ## C9 spec-modelled symmetric smoothing -/

/-- Modelled from the spec: a centered moving average of window size 30
whose edge windows shrink symmetrically (reduced equally on both sides of
the center day) rather than being padded or clipped one-sidedly. Kept for
comparison with `rollingMeanAt`. -/
def rollingMeanSymAt (vals : List ℚ) (i : ℕ) : ℚ :=
  let h := min 14 (min i (vals.length - 1 - i))
  let w := (vals.drop (i - h)).take (2 * h + 1)
  w.sum / (w.length : ℚ)

/-- C9 example series: 0, 1, ..., 29. -/
def exValsC9 : List ℚ := (List.range 30).map (fun n => (n : ℚ))

theorem rollingMean_length (vals : List ℚ) : (rollingMean vals).length = vals.length := by
  simp [rollingMean]

theorem restrictedFrame_length (obs : List Obs) : (restrictedFrame obs).length = 140 := by
  simp [restrictedFrame, dailyFrame]

theorem map_fst_pair {α β : Type} (f : α → β) :
    ∀ l : List α, (l.map (fun d => (d, f d))).map Prod.fst = l := by
  intro l
  induction l with
  | nil => rfl
  | cons a as ih => simp [ih]

theorem restrictedFrame_days (obs : List Obs) :
    (restrictedFrame obs).map Prod.fst = List.range' 151 140 := by
  have h : (restrictedFrame obs).map Prod.fst
      = (((dailyFrame obs).map Prod.fst).drop 150).take 140 := by
    simp [restrictedFrame, List.map_take, List.map_drop]
  have h2 : (dailyFrame obs).map Prod.fst = List.range' 1 364 := by
    simp only [dailyFrame]
    exact map_fst_pair _ _
  rw [h, h2]
  decide

theorem smoothedCurve_days (obs : List Obs) :
    (smoothedCurve obs).map Prod.fst = List.range' 151 140 := by
  have hlen : ((restrictedFrame obs).map Prod.fst).length
      ≤ (rollingMean ((restrictedFrame obs).map Prod.snd)).length := by
    simp [rollingMean_length, restrictedFrame_length]
  rw [smoothedCurve, List.map_fst_zip _ _ hlen, restrictedFrame_days]

theorem smoothedCurve_length (obs : List Obs) : (smoothedCurve obs).length = 140 := by
  have := smoothedCurve_days obs
  have hl : ((smoothedCurve obs).map Prod.fst).length = (List.range' 151 140).length := by
    rw [this]
  simpa using hl

theorem definedPts_exObsC1 : definedPts exObsC1 = [(200, 7), (210, 7)] := by
  with_unfolding_all decide

theorem dailyFrame_exObsC1 :
    dailyFrame exObsC1 = (List.range' 1 364).map (fun d => (d, (7 : ℚ))) := by
  simp only [dailyFrame, definedPts_exObsC1]
  with_unfolding_all decide

theorem buildCurve_exObsC1 : buildCurve exObsC1 = .ok exCurveC1 := by
  have hr : restrictedFrame exObsC1
      = (List.range' 151 140).map (fun d => (d, (7 : ℚ))) := by
    simp only [restrictedFrame, dailyFrame_exObsC1]
    with_unfolding_all decide
  have hs : smoothedCurve exObsC1 = exCurveC1 := by
    rw [smoothedCurve, hr]
    with_unfolding_all decide
  simp only [buildCurve, definedPts_exObsC1, hs]
  simp

/-- C1 (counterexample): the claim says the curve domain is exactly the days
150 through 289. On the code, the slice `basin_data_daily[150:290]` is a
positional row slice of the frame reindexed to days 1..364, so the produced
days are 151 through 290: day 150 is not in the domain and day 290 is. -/
theorem C1_domain_counterexample :
    buildCurve exObsC1 = .ok exCurveC1 ∧
    exCurveC1.map Prod.fst ≠ List.range' 150 140 ∧
    150 ∉ exCurveC1.map Prod.fst ∧
    290 ∈ exCurveC1.map Prod.fst := by
  refine ⟨buildCurve_exObsC1, by with_unfolding_all decide,
    by with_unfolding_all decide, by with_unfolding_all decide⟩

/-- C1 (amended): for every group on which the builder succeeds (at least two
distinct days of year carry data; a single-day group raises instead), the
curve's domain is exactly the integer days 151 through 290 inclusive, one
defined smoothed value per day and no gaps. -/
theorem C1_domain_amended (obs : List Obs) (c : List (ℕ × ℚ))
    (h : buildCurve obs = .ok c) :
    c.map Prod.fst = List.range' 151 140 ∧ c.length = 140 := by
  unfold buildCurve at h
  split at h
  · exact absurd h (by simp)
  · have hc : c = smoothedCurve obs := by
      cases h
      rfl
    subst hc
    exact ⟨smoothedCurve_days obs, smoothedCurve_length obs⟩

/-- C1 amended, witnessed on `exObsC1`. -/
theorem C1_domain_amended_witness :
    ∃ c, buildCurve exObsC1 = .ok c ∧
      c.map Prod.fst = List.range' 151 140 ∧ c.length = 140 :=
  ⟨exCurveC1, buildCurve_exObsC1,
    C1_domain_amended exObsC1 exCurveC1 buildCurve_exObsC1⟩


/-! ## C2: locality of failures -/

theorem processGroup_ok_iff (obs : List Obs) :
    (∃ v, processGroup obs = .ok v) ↔ (obs = [] ∨ 2 ≤ (definedPts obs).length) := by
  constructor
  · rintro ⟨v, hv⟩
    by_cases he : obs.isEmpty
    · exact Or.inl (List.isEmpty_iff.mp he)
    · right
      by_contra hlt
      have hl : (definedPts obs).length < 2 := by omega
      rw [processGroup, if_neg he, buildCurve, if_pos hl] at hv
      simp [Except.map] at hv
  · intro h
    by_cases he : obs.isEmpty
    · exact ⟨none, by rw [processGroup, if_pos he]⟩
    · have hne : obs ≠ [] := fun hn => he (by simp [hn])
      have hl : ¬ (definedPts obs).length < 2 := by
        rcases h with h | h
        · exact absurd h hne
        · omega
      exact ⟨some (extractMetrics (smoothedCurve obs)), by
        rw [processGroup, if_neg he, buildCurve, if_neg hl]
        rfl⟩

theorem runAll_ok_iff : ∀ gs : List (List Obs),
    (∃ rs, runAll gs = .ok rs) ↔ ∀ g ∈ gs, ∃ v, processGroup g = .ok v := by
  intro gs
  induction gs with
  | nil => exact ⟨fun _ => by simp, fun _ => ⟨[], rfl⟩⟩
  | cons g gs ih =>
    constructor
    · rintro ⟨rs, hrs⟩
      rw [runAll] at hrs
      cases hpg : processGroup g with
      | error e => rw [hpg] at hrs; exact absurd hrs (by simp)
      | ok r =>
        rw [hpg] at hrs
        cases hra : runAll gs with
        | error e => rw [hra] at hrs; exact absurd hrs (by simp)
        | ok rs2 =>
          intro g' hg'
          rcases List.mem_cons.mp hg' with h | h
          · exact h ▸ ⟨r, hpg⟩
          · exact (ih.mp ⟨rs2, hra⟩) g' h
    · intro h
      obtain ⟨v, hv⟩ := h g (by simp)
      obtain ⟨rs, hrs⟩ := ih.mpr (fun g' hg' => h g' (by simp [hg']))
      exact ⟨v :: rs, by rw [runAll, hv, hrs]⟩

theorem processGroup_exObsC1 :
    processGroup exObsC1 = .ok (some (extractMetrics exCurveC1)) := by
  rw [processGroup, if_neg (by decide), buildCurve_exObsC1]
  rfl

/-- C2 (counterexample): the claim says no group's observation content can
raise an exception aborting the whole run. On the code, a group whose
observations all fall on a single day of year leaves `interp1d` with one
point, which raises a ValueError that kills the entire script: a run with a
healthy group followed by such a group produces no output at all. -/
theorem C2_locality_counterexample :
    runAll exGroupsC2 =
      .error "interp1d: x and y arrays must have at least 2 entries" := by
  have hbad : processGroup [(200, 5), (200, 9)] =
      .error "interp1d: x and y arrays must have at least 2 entries" := by
    have h : definedPts [(200, 5), (200, 9)] = [(200, 7)] := by
      with_unfolding_all decide
    rw [processGroup, if_neg (by decide), buildCurve, h, if_pos (by decide)]
    rfl
  show runAll (exObsC1 :: [(200, 5), (200, 9)] :: []) =
    .error "interp1d: x and y arrays must have at least 2 entries"
  rw [runAll, processGroup_exObsC1, runAll, hbad]

/-- C2 (amended): a group with zero observations is skipped and does not
stop the run, and a group whose observations cover at least two distinct
days of year never raises; but a nonempty group covering fewer than two
distinct days of year raises a ValueError inside `interp1d` that aborts the
entire run, losing every group's output. Formally: the run succeeds exactly
when every group is empty or covers at least two distinct sampled days. -/
theorem C2_failure_locality_amended (groups : List (List Obs)) :
    (∃ rs, runAll groups = .ok rs) ↔
      ∀ g ∈ groups, g = [] ∨ 2 ≤ (definedPts g).length := by
  rw [runAll_ok_iff]
  exact ⟨fun h g hg => (processGroup_ok_iff g).mp (h g hg),
    fun h g hg => (processGroup_ok_iff g).mpr (h g hg)⟩

/-- C2 amended, witnessed on a concrete pair of groups (one healthy, one
empty). -/
theorem C2_failure_locality_amended_witness :
    ∃ rs, runAll exGroupsC2ok = .ok rs :=
  (C2_failure_locality_amended exGroupsC2ok).mpr (by with_unfolding_all decide)

/-! ## C5/C7: the start-of-season threshold crossing -/

theorem filter_head_some {α : Type} (p : α → Bool) :
    ∀ (l : List α) (x : α), (l.filter p).head? = some x →
      ∃ l₁ l₂, l = l₁ ++ x :: l₂ ∧ p x = true ∧ ∀ y ∈ l₁, p y = false := by
  intro l
  induction l with
  | nil => intro x h; simp at h
  | cons a as ih =>
    intro x h
    by_cases hpa : p a
    · rw [List.filter_cons_of_pos hpa] at h
      simp only [List.head?_cons, Option.some.injEq] at h
      exact ⟨[], as, by simp [h], h ▸ hpa, by simp⟩
    · rw [List.filter_cons_of_neg hpa] at h
      obtain ⟨l₁, l₂, hsplit, hpx, hall⟩ := ih x h
      refine ⟨a :: l₁, l₂, by simp [hsplit], hpx, ?_⟩
      intro y hy
      rcases List.mem_cons.mp hy with hya | hyl
      · subst hya; simpa using hpa
      · exact hall y hyl

theorem first_crossing_of_head {w : List (ℕ × ℚ)} {t : ℚ} {d : ℕ}
    (h : ((w.filter (fun p => decide (t < p.2))).map Prod.fst).head? = some d) :
    ∃ v l₁ l₂, w = l₁ ++ (d, v) :: l₂ ∧ t < v ∧ ∀ q ∈ l₁, q.2 ≤ t := by
  rw [List.head?_map] at h
  cases hf : (w.filter (fun p => decide (t < p.2))).head? with
  | none => rw [hf] at h; simp at h
  | some pr =>
    rw [hf] at h
    obtain ⟨d', v⟩ := pr
    simp only [Option.map_some', Option.some.injEq] at h
    subst h
    obtain ⟨l₁, l₂, hsplit, hp, hall⟩ := filter_head_some _ w (d', v) hf
    refine ⟨v, l₁, l₂, hsplit, of_decide_eq_true hp, ?_⟩
    intro q hq
    have := hall q hq
    have hnot : ¬ (t < q.2) := by
      intro hlt
      rw [decide_eq_true hlt] at this
      exact Bool.true_eq_false.mp this
    exact le_of_not_lt hnot

/-- C5: for every curve whose [120,304] sub-window has a defined threshold
`t = min + 0.2 * (max - min)`, (1) a produced SOS is the first row of the
sub-window, in list order (which is increasing day order for built curves),
whose smoothed value strictly exceeds `t` — in particular a day whose value
merely equals `t` is never the selected row; (2) if no value strictly
exceeds `t` the SOS is absent; (3) on a day-sorted curve every sub-window
day earlier than the SOS has value at most `t`. -/
theorem C5_sos_first_strict_crossing (c : List (ℕ × ℚ)) (t : ℚ)
    (ht : thresholdOf c = some t) :
    (∀ d, sosOfCurve c = some d →
      ∃ v l₁ l₂, sosWindow c = l₁ ++ (d, v) :: l₂ ∧ t < v ∧ ∀ q ∈ l₁, q.2 ≤ t) ∧
    ((∀ q ∈ sosWindow c, q.2 ≤ t) → sosOfCurve c = none) ∧
    (List.Pairwise (fun a b => a.1 < b.1) c →
      ∀ d, sosOfCurve c = some d → ∀ q ∈ sosWindow c, q.1 < d → q.2 ≤ t) := by
  have hs : sosOfCurve c
      = (((sosWindow c).filter (fun p => decide (t < p.2))).map Prod.fst).head? := by
    rw [sosOfCurve, ht]
  refine ⟨?_, ?_, ?_⟩
  · intro d hd
    rw [hs] at hd
    exact first_crossing_of_head hd
  · intro hall
    rw [hs]
    have hnil : (sosWindow c).filter (fun p => decide (t < p.2)) = [] := by
      rw [List.filter_eq_nil_iff]
      intro q hq
      simpa using not_lt_of_le (hall q hq)
    rw [hnil]
    rfl
  · intro hpair d hd q hq hqd
    rw [hs] at hd
    obtain ⟨v, l₁, l₂, hsplit, hv, hall⟩ := first_crossing_of_head hd
    have hwpair : (sosWindow c).Pairwise (fun a b => a.1 < b.1) :=
      hpair.filter _
    rw [hsplit] at hwpair hq
    rcases List.mem_append.mp hq with hql | hqr
    · exact hall q hql
    · rcases List.mem_cons.mp hqr with hqd' | hql2
      · exact absurd hqd (by rw [hqd']; exact lt_irrefl d)
      · have h2 := (List.pairwise_append.mp hwpair).2.1
        have hdq : d < q.1 := (List.pairwise_cons.mp h2).1 q hql2
        exact absurd hqd (by omega)

/-- C5 witnessed on a two-point curve: threshold 2, SOS at day 200. -/
theorem C5_sos_first_strict_crossing_witness :
    ∃ v l₁ l₂, sosWindow [(150, 0), (200, 10)] = l₁ ++ (200, v) :: l₂ ∧
      (2 : ℚ) < v ∧ ∀ q ∈ l₁, q.2 ≤ 2 :=
  (C5_sos_first_strict_crossing [(150, 0), (200, 10)] 2
    (by with_unfolding_all decide)).1 200 (by with_unfolding_all decide)

/-- C7 (counterexample): the claim says that with fewer than 2 sub-window
points amplitude, threshold, SOS and AUC are all absent. On the code, for a
single-point sub-window the amplitude is the number 0 and the threshold is
the point's value — neither is absent; only SOS and AUC are. -/
theorem C7_degenerate_window_counterexample :
    (sosWindow [((200 : ℕ), (5 : ℚ))]).length < 2 ∧
    amplitudeOf [((200 : ℕ), (5 : ℚ))] = some 0 ∧
    thresholdOf [((200 : ℕ), (5 : ℚ))] = some 5 ∧
    sosOfCurve [((200 : ℕ), (5 : ℚ))] = none ∧
    aucOf [((200 : ℕ), (5 : ℚ))] = none := by
  with_unfolding_all decide

/-- C7 (amended): when the [120,304] sub-window has fewer than 2 points, no
exception is raised (every extraction function is total) and SOS and AUC
are absent; but amplitude and threshold are not absent: for a one-point
window the amplitude is 0 and the threshold is the point's value, and only
for an empty window do they take the NaN of an empty aggregation. -/
theorem C7_degenerate_window_amended (c : List (ℕ × ℚ))
    (h : (sosWindow c).length < 2) :
    sosOfCurve c = none ∧ aucOf c = none ∧
    (∀ d v, sosWindow c = [(d, v)] →
      amplitudeOf c = some 0 ∧ thresholdOf c = some v) ∧
    (sosWindow c = [] → amplitudeOf c = none ∧ thresholdOf c = none) := by
  rcases hw : sosWindow c with _ | ⟨⟨d0, v0⟩, _ | ⟨b, rest⟩⟩
  · have hsos : sosOfCurve c = none := by
      simp [sosOfCurve, thresholdOf, minChla, maxChla, hw, listMinQ, listMaxQ]
    refine ⟨hsos, by simp [aucOf, hsos], by simp [hw], ?_⟩
    intro _
    constructor
    · simp [amplitudeOf, minChla, maxChla, hw, listMinQ, listMaxQ]
    · simp [thresholdOf, minChla, maxChla, hw, listMinQ, listMaxQ]
  · have hmin : minChla c = some v0 := by
      simp [minChla, hw, listMinQ]
    have hmax : maxChla c = some v0 := by
      simp [maxChla, hw, listMaxQ]
    have hth : thresholdOf c = some v0 := by
      simp [thresholdOf, hmin, hmax]
    have hsos : sosOfCurve c = none := by
      rw [sosOfCurve, hth, hw]
      simp
    refine ⟨hsos, by simp [aucOf, hsos], ?_, by simp⟩
    intro d v heq
    obtain ⟨hd, hv⟩ : d0 = d ∧ v0 = v := by simpa using heq
    constructor
    · simp [amplitudeOf, hmin, hmax]
    · rw [hth, hv]
  · rw [hw] at h
    exact absurd h (by simp)

/-- C7 amended, witnessed on a one-point sub-window. -/
theorem C7_degenerate_window_amended_witness :
    sosOfCurve [((130 : ℕ), (9 : ℚ))] = none ∧
      aucOf [((130 : ℕ), (9 : ℚ))] = none ∧
      amplitudeOf [((130 : ℕ), (9 : ℚ))] = some 0 ∧
      thresholdOf [((130 : ℕ), (9 : ℚ))] = some 9 := by
  have h := C7_degenerate_window_amended [((130 : ℕ), (9 : ℚ))]
    (by with_unfolding_all decide)
  have hw : sosWindow [((130 : ℕ), (9 : ℚ))] = [(130, 9)] := by
    with_unfolding_all decide
  exact ⟨h.1, h.2.1, (h.2.2.1 130 9 hw).1, (h.2.2.1 130 9 hw).2⟩

/-! ## C4: the SOS bootstrap iteration -/

/-- C4 (counterexample): the claim says an iteration's SOS is the first day
whose value in the re-smoothed series exceeds the recomputed threshold. On
the code (line 94), the candidates are selected from the resampled rows'
original `chla_avg` values, not from the recomputed `chla_smooth`: for the
spike resample below the code returns day 3 while the claimed re-smoothed
selection returns nothing. -/
theorem C4_bootstrap_counterexample :
    bootIterSOS exBootC4 = some 3 ∧ bootIterSOSSpec exBootC4 = none := by
  with_unfolding_all decide

/-- C4 (amended): each iteration resamples, re-sorts by day, recomputes the
rolling smoothing and from it the threshold min + 0.2 × (max − min), but
selects as the iteration's SOS the first day (in the sorted resample) whose
ORIGINAL smoothed value `chla_avg` strictly exceeds that recomputed
threshold; iterations producing no SOS are excluded from the spread
computation (not treated as zero), and the uncertainty is absent exactly
when every iteration produced none. -/
theorem C4_bootstrap_amended (samples : List (List (ℕ × ℚ))) :
    (sosUncertainty samples = none ↔ ∀ s ∈ samples, bootIterSOS s = none) ∧
    (∀ s ∈ samples, ∀ d t, bootIterSOS s = some d → bootThreshold s = some t →
      ∃ v l₁ l₂, sortByDoy s = l₁ ++ (d, v) :: l₂ ∧ t < v ∧ ∀ q ∈ l₁, q.2 ≤ t) := by
  constructor
  · have hiff : sosUncertainty samples = none ↔ bootstrapSOSList samples = [] := by
      rw [sosUncertainty]
      by_cases hb : (bootstrapSOSList samples).isEmpty
      · simp [hb, List.isEmpty_iff.mp hb]
      · simp only [hb, Bool.false_eq_true, if_false]
        constructor
        · intro hc; exact absurd hc (by simp)
        · intro hnil; exact absurd hnil (by simpa [List.isEmpty_iff] using hb)
    rw [hiff, bootstrapSOSList, List.filterMap_eq_nil_iff]
  · intro s _ d t hd ht
    rw [bootIterSOS, ht] at hd
    exact first_crossing_of_head hd

/-- C4 amended, witnessed on a singleton iteration list with resample
`exBootC4w` (recomputed threshold 5, SOS at day 20). -/
theorem C4_bootstrap_amended_witness :
    (sosUncertainty [exBootC4w] = none ↔ ∀ s ∈ [exBootC4w], bootIterSOS s = none) ∧
    (∃ v l₁ l₂, sortByDoy exBootC4w = l₁ ++ (20, v) :: l₂ ∧ (5 : ℚ) < v ∧
      ∀ q ∈ l₁, q.2 ≤ 5) :=
  ⟨(C4_bootstrap_amended [exBootC4w]).1,
    (C4_bootstrap_amended [exBootC4w]).2 exBootC4w (by simp) 20 5
      (by with_unfolding_all decide) (by with_unfolding_all decide)⟩

/-! ## C3: the trend-method guards -/

/-- C3 (counterexample): the claim says a method without enough input still
appears in the output marked "not computed". On the code, for a table with
only three decades and three usable rows, every method's guard fails and
the output contains no method entry at all. -/
theorem C3_not_computed_counterexample :
    trendMethodsRun exTableC3 = [] := by
  with_unfolding_all decide

/-- C3 (amended): each trend method produces output exactly when its guard
passes — Methods 1 and 3 appear iff there are exactly 4 decade means,
Method 2 iff there are at least 4 measurements passing the notna filter;
a method with insufficient input is silently omitted, with no "not
computed" marker anywhere in the output. -/
theorem C3_silent_skip_amended (t : List Row) :
    (MethodTag.method1 ∈ trendMethodsRun t ↔ (meanDoyValues t).length = 4) ∧
    (MethodTag.method2 ∈ trendMethodsRun t ↔ 4 ≤ (usableRows t).length) ∧
    (MethodTag.method3 ∈ trendMethodsRun t ↔ (meanDoyValues t).length = 4) := by
  rw [trendMethodsRun]
  by_cases h1 : (meanDoyValues t).length = 4 <;>
    by_cases h2 : 4 ≤ (usableRows t).length <;>
      simp [h1, h2]

/-! ## C6: the Sen slope on the three-point outlier example -/

/-- C6 (counterexample): the claim says the Sen slope for (1,10), (2,20),
(3,1000) lies close to 10. On the code, the pairwise slopes are
[10, 495, 980] and their median is 495 — 485 away from 10. -/
theorem C6_sens_slope_counterexample :
    sens_slope [1, 2, 3] [10, 20, 1000] = 495 ∧
      (100 : ℚ) < |sens_slope [1, 2, 3] [10, 20, 1000] - 10| := by
  with_unfolding_all decide

/-- C6 (amended): for the three points (1,10), (2,20), (3,1000) the
pairwise slopes are [10, 495, 980], and the Sen slope — their median — is
exactly 495: with three points, two of the three pairwise slopes run
through the outlier, so the median is itself an outlier slope, far from
the well-behaved 10 (and equal, here, to what the outlier pulls it to). -/
theorem C6_sens_slope_amended :
    pairSlopes [1, 2, 3] [10, 20, 1000] = [10, 495, 980] ∧
      sens_slope [1, 2, 3] [10, 20, 1000] = npMedian [10, 495, 980] ∧
      sens_slope [1, 2, 3] [10, 20, 1000] = 495 := by
  with_unfolding_all decide

/-! ## C8: the single-cell outlier correction -/

theorem filter_singleton_decomp {α : Type} (p : α → Bool) :
    ∀ l : List α, (l.filter p).length = 1 →
      ∃ l₁ x l₂, l = l₁ ++ x :: l₂ ∧ p x = true ∧
        (∀ y ∈ l₁, p y = false) ∧ (∀ y ∈ l₂, p y = false) := by
  intro l
  induction l with
  | nil => intro h; simp at h
  | cons a as ih =>
    intro h
    by_cases hpa : p a
    · rw [List.filter_cons_of_pos hpa] at h
      have h0 : (as.filter p).length = 0 := by simpa using h
      have hnil : as.filter p = [] := List.length_eq_zero.mp h0
      have hall : ∀ y ∈ as, p y = false := by
        intro y hy
        have := List.filter_eq_nil_iff.mp hnil y hy
        simpa using this
      exact ⟨[], a, as, rfl, hpa, by simp, hall⟩
    · rw [List.filter_cons_of_neg hpa] at h
      obtain ⟨l₁, x, l₂, hsplit, hpx, h1, h2⟩ := ih h
      refine ⟨a :: l₁, x, l₂, by simp [hsplit], hpx, ?_, h2⟩
      intro y hy
      rcases List.mem_cons.mp hy with hya | hyl
      · subst hya; simpa using hpa
      · exact h1 y hyl

theorem map_id_of_mem {α : Type} (f : α → α) :
    ∀ l : List α, (∀ x ∈ l, f x = x) → l.map f = l := by
  intro l
  induction l with
  | nil => intro _; rfl
  | cons a as ih =>
    intro h
    rw [List.map_cons, h a (by simp), ih (fun x hx => h x (by simp [hx]))]

/-- C8: when exactly one row of the metrics table matches the outlier mask
(basin Zanka, decade 4, automatically computed peak day 279 — the situation
the documented correction presumes), the corrected table differs from the
uncorrected one at exactly that row; in that row only the peak-day and
uncertainty fields change (to 246 and 3.2) while every other field keeps
its value, and every other row is returned unchanged. The code applies the
correction to a `.copy()` (line 157), so the original automatically
computed table survives; in this functional model the input table is by
construction never mutated. -/
theorem C8_single_cell_correction (t : List Row)
    (h : (t.filter outlierMask).length = 1) :
    ∃ l₁ r l₂, t = l₁ ++ r :: l₂ ∧
      outlierMask r = true ∧ r.peak_doy = some 279 ∧
      applyOutlierCorrection t = l₁ ++ correctedRowOf r :: l₂ ∧
      (∀ q ∈ l₁, correctRow q = q) ∧ (∀ q ∈ l₂, correctRow q = q) ∧
      (correctedRowOf r).peak_doy = some 246 ∧
      (correctedRowOf r).std2 = some (16 / 5) ∧
      (correctedRowOf r).peak_doy ≠ r.peak_doy ∧
      (correctedRowOf r).basin = r.basin ∧
      (correctedRowOf r).decade = r.decade ∧
      (correctedRowOf r).peak_value = r.peak_value ∧
      (correctedRowOf r).sos = r.sos ∧
      (correctedRowOf r).sos_std = r.sos_std ∧
      (correctedRowOf r).amplitude = r.amplitude ∧
      (correctedRowOf r).auc = r.auc := by
  obtain ⟨l₁, r, l₂, hsplit, hmask, h1, h2⟩ := filter_singleton_decomp outlierMask t h
  have hm := hmask
  simp only [outlierMask, Bool.and_eq_true, decide_eq_true_eq] at hm
  have hpeak : r.peak_doy = some 279 := hm.2
  have hfix1 : ∀ q ∈ l₁, correctRow q = q := by
    intro q hq
    rw [correctRow, if_neg]
    simp [h1 q hq]
  have hfix2 : ∀ q ∈ l₂, correctRow q = q := by
    intro q hq
    rw [correctRow, if_neg]
    simp [h2 q hq]
  have hcorr : applyOutlierCorrection t = l₁ ++ correctedRowOf r :: l₂ := by
    rw [hsplit, applyOutlierCorrection, List.map_append, List.map_cons]
    rw [map_id_of_mem correctRow l₁ hfix1, map_id_of_mem correctRow l₂ hfix2]
    rw [correctRow, if_pos hmask]
  have hne : (correctedRowOf r).peak_doy ≠ r.peak_doy := by
    rw [hpeak, correctedRowOf]
    simp only [Option.some.injEq, ne_eq]
    intro hc
    have : (246 : ℚ) ≠ 279 := by norm_num
    exact this hc
  exact ⟨l₁, r, l₂, hsplit, hmask, hpeak, hcorr, hfix1, hfix2, rfl, rfl, hne,
    rfl, rfl, rfl, rfl, rfl, rfl, rfl⟩

/-- C8 witnessed on a concrete two-row table holding the Zanka decade-4 row. -/
theorem C8_single_cell_correction_witness :
    ∃ l₁ r l₂, exTableC8 = l₁ ++ r :: l₂ ∧ outlierMask r = true ∧
      applyOutlierCorrection exTableC8 = l₁ ++ correctedRowOf r :: l₂ ∧
      (∀ q ∈ l₁, correctRow q = q) ∧ (∀ q ∈ l₂, correctRow q = q) ∧
      (correctedRowOf r).peak_doy ≠ r.peak_doy := by
  obtain ⟨l₁, r, l₂, hsplit, hmask, _, hcorr, hfix1, hfix2, _, _, hne, _⟩ :=
    C8_single_cell_correction exTableC8 (by with_unfolding_all decide)
  exact ⟨l₁, r, l₂, hsplit, hmask, hcorr, hfix1, hfix2, hne⟩

/-! ## C9: shape of the rolling window -/

/-- C9 (counterexample): the claim says edge windows shrink symmetrically.
On the code, at position 0 of the series 0, 1, ..., 29, pandas averages the
15 positions 0..14 (value 7) instead of the single center position (value 0,
what an equal-sided shrink would give). -/
theorem C9_rolling_counterexample :
    (rollingMean exValsC9).getD 0 0 = 7 ∧ rollingMeanSymAt exValsC9 0 = 0 ∧
      (rollingMean exValsC9).getD 0 0 ≠ rollingMeanSymAt exValsC9 0 := by
  with_unfolding_all decide

theorem sum_take_eq_range (l : List ℚ) :
    ∀ m, (l.take m).sum = ∑ j in Finset.range m, l.getD j 0 := by
  induction l with
  | nil =>
    intro m
    simp [List.getD]
  | cons a as ih =>
    intro m
    cases m with
    | zero => simp
    | succ m =>
      rw [List.take_succ_cons, List.sum_cons,
        Finset.sum_range_succ' (fun j => (a :: as).getD j 0) m]
      simp only [List.getD_cons_succ, List.getD_cons_zero]
      rw [ih m, add_comm]

theorem getD_drop_eq (l : List ℚ) (a j : ℕ) :
    (l.drop a).getD j 0 = l.getD (a + j) 0 := by
  simp [List.getD_eq_getElem?_getD, List.getElem?_drop]

theorem sum_slice_eq (l : List ℚ) (a m : ℕ) :
    ((l.drop a).take m).sum = ∑ j in Finset.Ico a (a + m), l.getD j 0 := by
  rw [sum_take_eq_range, Finset.sum_Ico_eq_sum_range]
  have hm : a + m - a = m := by omega
  rw [hm]
  exact Finset.sum_congr rfl (fun j _ => getD_drop_eq l a j)

/-- C9 (amended): for every position i of the restricted series, the final
smoothed value is the arithmetic mean of the values at positions
max(0, i−15) through min(n−1, i+14): a window of nominal size 30 reaching
15 positions back and 14 forward, truncated one-sidedly at the series
bounds rather than shrunk symmetrically. -/
theorem C9_rolling_clipped_amended (vals : List ℚ) (i : ℕ) (h : i < vals.length) :
    (rollingMean vals).getD i 0 =
      (∑ j in Finset.Icc (i - 15) (min (vals.length - 1) (i + 14)), vals.getD j 0) /
        ((min (vals.length - 1) (i + 14) + 1 - (i - 15) : ℕ) : ℚ) := by
  have hval : (rollingMean vals).getD i 0 = rollingMeanAt vals i := by
    rw [rollingMean, List.getD_eq_getElem?_getD, List.getElem?_map]
    simp [List.getElem?_range, h]
  rw [hval]
  simp only [rollingMeanAt]
  have hlen : ((vals.drop (i - 15)).take (min vals.length (i + 15) - (i - 15))).length
      = min vals.length (i + 15) - (i - 15) := by
    simp only [List.length_take, List.length_drop]
    omega
  have hnum : ((vals.drop (i - 15)).take (min vals.length (i + 15) - (i - 15))).sum
      = ∑ j in Finset.Icc (i - 15) (min (vals.length - 1) (i + 14)), vals.getD j 0 := by
    rw [sum_slice_eq]
    congr 1
    rw [← Nat.Ico_succ_right]
    congr 1
    omega
  rw [hnum, hlen]
  congr 1
  congr 1
  omega

/-- C9 amended, witnessed at position 0 of the 0..29 example series. -/
theorem C9_rolling_clipped_amended_witness :
    (rollingMean exValsC9).getD 0 0 =
      (∑ j in Finset.Icc (0 - 15) (min (exValsC9.length - 1) (0 + 14)),
          exValsC9.getD j 0) /
        ((min (exValsC9.length - 1) (0 + 14) + 1 - (0 - 15) : ℕ) : ℚ) :=
  C9_rolling_clipped_amended exValsC9 0 (by with_unfolding_all decide)

/-! ## C10: zero uncertainty in the weighted regression -/

/-- C10: a metrics row whose peak-day uncertainty std2 is 0 is neither
excluded nor guarded against: it passes the notna filter into the usable
rows, its weight 1/std2² is computed by an unguarded division whose value
is non-finite (⊤ models the numpy infinity), and the Method-2 guard
consults only definedness — replacing every row's defined std2 value by
any other value leaves the guard's verdict unchanged, so positivity is
never checked. -/
theorem C10_zero_uncertainty_unguarded (t : List Row) (r : Row)
    (hmem : r ∈ t) (hdoy : r.peak_doy.isSome = true) (hstd : r.std2 = some 0) :
    r ∈ usableRows t ∧ weightOf r = ⊤ ∧
    ∀ c : ℚ,
      method2Runs (t.map (fun q => { q with std2 := q.std2.map (fun _ => c) }))
        = method2Runs t := by
  refine ⟨?_, ?_, ?_⟩
  · rw [usableRows]
    exact List.mem_filter.mpr ⟨hmem, by rw [usableRow]; simp [hdoy, hstd]⟩
  · rw [weightOf, hstd]
    norm_num [npReciprocal]
  · intro c
    have hlen : (usableRows
        (t.map (fun q => { q with std2 := q.std2.map (fun _ => c) }))).length
        = (usableRows t).length := by
      rw [usableRows, usableRows, List.filter_map, List.length_map]
      have hcong : ∀ q ∈ t,
          (usableRow ∘ (fun q => { q with std2 := q.std2.map (fun _ => c) })) q
            = usableRow q := by
        intro q _
        cases hq : q.std2 <;> simp [usableRow, Function.comp, hq]
      rw [List.filter_congr hcong]
    rw [method2Runs, method2Runs, hlen]

/-- C10 witnessed on a four-row table whose first row has std2 = 0: the row
is usable, its weight is infinite, rescaling the uncertainties leaves the
guard unchanged, and the guard does pass on this table. -/
theorem C10_zero_uncertainty_unguarded_witness :
    exRowC10 ∈ usableRows exTableC10 ∧ weightOf exRowC10 = ⊤ ∧
      method2Runs (exTableC10.map
        (fun q => { q with std2 := q.std2.map (fun _ => (5 : ℚ)) }))
        = method2Runs exTableC10 ∧
      method2Runs exTableC10 = true := by
  have h := C10_zero_uncertainty_unguarded exTableC10 exRowC10
    (by with_unfolding_all decide) (by with_unfolding_all decide)
    (by with_unfolding_all decide)
  exact ⟨h.1, h.2.1, h.2.2 5, by with_unfolding_all decide⟩
